import Mathlib

/-!
Verification of the `languoids` autocomplete resolver in `wals3/views.py`
(lines 65-120).

The view has three paths:
* a direct-lookup path (lines 67-77): a key of the form `<prefix>-<id>` is
  split at the first `-`; the prefix selects a model via
  `dict(w=Language, g=Genus, f=Family).get(m)`; a missing separator,
  unrecognized prefix, or absent entity yields `HTTPNotFound`, otherwise an
  `HTTPFound` redirect;
* an empty-query path (lines 79-82): `if not qs: return []` — a bare JSON
  list;
* a text-search cascade (lines 84-120): Stage A queries `Language` by name
  (ordered by `WalsLanguage.ascii_name`, `.limit(max_results)`), Stage B
  queries `Language` joined through `LanguageIdentifier`/`Identifier`
  (ordered by `WalsLanguage.ascii_name`) with per-element dedup against the
  growing result list, Stage C queries `Genus` by name, Stage D queries
  `Family` by name; before stages B, C and D the code runs
  `if len(res) < max_results: max_results = max_results - len(res)` and
  caps the stage's query with the reassigned `max_results`.

Database queries are embedded as the full ordered list of rows the query
would return before the final `.limit(n)`, and `.limit(n)` itself as
`List.take n`.  The `LanguoidSelect.format_result` map applied at line 120
is the external Result Formatter (a pure per-element map); results here
keep the backing entity references that formatting is applied to.
-/

namespace Wals3

/-- Backing database entities: `Language`, `Genus` and `Family` rows,
identified by primary key.  Python `l not in res` compares ORM objects,
which within one session coincide with row identity. -/
inductive Entity
  | lang (pk : Nat)
  | genus (pk : Nat)
  | family (pk : Nat)
deriving DecidableEq

/-- The three values of `dict(w=Language, g=Genus, f=Family)` at line 71. -/
inductive Model
  | w
  | g
  | f
deriving DecidableEq

/-- The four provider stages of the cascade, in priority order. -/
inductive Stage
  | A
  | B
  | C
  | D
deriving DecidableEq

/-- Numeric priority of a stage (A before B before C before D). -/
def stageIdx : Stage → Nat
  | .A => 0
  | .B => 1
  | .C => 2
  | .D => 3

/-- The environment a single `languoids` call runs against: the direct
lookup `model.get(id_, default=None)` (line 74) and, for the fixed query
string of this call, the full ordered row lists of the four provider
queries (lines 84-86, 94-97, 105-107 and 114-116) before their `.limit`. -/
structure Env where
  getModel : Model → List Char → Option Entity
  nameMatches : List Entity
  identMatches : List Entity
  genusMatches : List Entity
  familyMatches : List Entity

/-- The request parameters read by the view: `request.params.get('id')`
and `request.params.get('q')`; `none` for an absent parameter. -/
structure Request where
  id : Option (List Char)
  q : Option (List Char)

/-- Python truthiness of `request.params.get(...)`: an absent parameter or
an empty string is falsy. -/
def pyTruthy : Option (List Char) → Bool
  | none => false
  | some s => !s.isEmpty

/-- The view's possible return values: `HTTPNotFound()` (lines 69, 73, 76),
`HTTPFound(location=...)` (line 77), the bare empty list `[]` (line 82),
and the `dict(results=..., context={}, more=False)` of line 120 (with the
external formatter applied pointwise to the entity list). -/
inductive Response
  | notFound
  | found (e : Entity)
  | emptyList
  | results (rs : List Entity) (more : Bool)
deriving DecidableEq

/-- Python `s.split('-', 1)` preceded by the `'-' not in s` test
(lines 68-70): `none` when the string holds no `'-'`, otherwise the part
before the first `'-'` and everything after it. -/
def splitFirstDash : List Char → Option (List Char × List Char)
  | [] => none
  | c :: rest =>
    if c = '-' then some ([], rest)
    else (splitFirstDash rest).map fun p => (c :: p.1, p.2)

/-- The lookup `dict(w=Language, g=Genus, f=Family).get(m)` at line 71. -/
def modelOf (m : List Char) : Option Model :=
  if m = ['w'] then some Model.w
  else if m = ['g'] then some Model.g
  else if m = ['f'] then some Model.f
  else none

/-- The Stage B loop body (lines 97-99): for each candidate in order,
`if l not in res: res.append(l)`. -/
def dedupAppend (res : List Entity) : List Entity → List Entity
  | [] => res
  | l :: rest =>
    if l ∈ res then dedupAppend res rest
    else dedupAppend (res ++ [l]) rest

/-- The candidates the Stage B loop newly accepts, given the list `seen`
that `res` held when the loop started: a candidate already present is
skipped, an accepted one joins the membership check for later candidates. -/
def accepted (seen : List Entity) : List Entity → List Entity
  | [] => []
  | l :: rest =>
    if l ∈ seen then accepted seen rest
    else l :: accepted (seen ++ [l]) rest

/-- Lines 84-88: `res = [l for l in query]` for the `Language`-by-name
query `.limit(max_results)` with `max_results` still at its initial value. -/
def resA (limit : Nat) (env : Env) : List Entity :=
  env.nameMatches.take limit

/-- Lines 90-99 as a state transformer: the pair is `(res, max_results)`
after the Stage B block.  `if len(res) < max_results:` reassigns
`max_results = max_results - len(res)` and runs the dedup-append loop over
the identifier query `.limit(max_results)`. -/
def stB (limit : Nat) (env : Env) : List Entity × Nat :=
  if (resA limit env).length < limit then
    (dedupAppend (resA limit env)
        (env.identMatches.take (limit - (resA limit env).length)),
      limit - (resA limit env).length)
  else (resA limit env, limit)

/-- Lines 101-108: the Stage C block; same gate and reassignment, plain
`res.append(l)` over the `Genus` query `.limit(max_results)`. -/
def stC (limit : Nat) (env : Env) : List Entity × Nat :=
  if (stB limit env).1.length < (stB limit env).2 then
    ((stB limit env).1 ++
        env.genusMatches.take ((stB limit env).2 - (stB limit env).1.length),
      (stB limit env).2 - (stB limit env).1.length)
  else stB limit env

/-- Lines 110-117: the Stage D block over the `Family` query. -/
def stD (limit : Nat) (env : Env) : List Entity × Nat :=
  if (stC limit env).1.length < (stC limit env).2 then
    ((stC limit env).1 ++
        env.familyMatches.take ((stC limit env).2 - (stC limit env).1.length),
      (stC limit env).2 - (stC limit env).1.length)
  else stC limit env

/-- The final `res` of the cascade (the list formatted and returned at
line 120), with `limit` the initial `max_results` (20 at line 79). -/
def cascade (limit : Nat) (env : Env) : List Entity :=
  (stD limit env).1

/-- Whether the Stage B gate `len(res) < max_results` at line 90 passes. -/
def invokedB (limit : Nat) (env : Env) : Bool :=
  (resA limit env).length < limit

/-- The `.limit` value the Stage B query is capped with when invoked. -/
def capB (limit : Nat) (env : Env) : Nat :=
  limit - (resA limit env).length

/-- Whether the Stage C gate `len(res) < max_results` at line 101 passes. -/
def invokedC (limit : Nat) (env : Env) : Bool :=
  (stB limit env).1.length < (stB limit env).2

/-- The `.limit` value the Stage C query is capped with when invoked. -/
def capC (limit : Nat) (env : Env) : Nat :=
  (stB limit env).2 - (stB limit env).1.length

/-- Whether the Stage D gate `len(res) < max_results` at line 110 passes. -/
def invokedD (limit : Nat) (env : Env) : Bool :=
  (stC limit env).1.length < (stC limit env).2

/-- The `.limit` value the Stage D query is capped with when invoked. -/
def capD (limit : Nat) (env : Env) : Nat :=
  (stC limit env).2 - (stC limit env).1.length

/-- The candidates Stage B contributes to `res`. -/
def segB (limit : Nat) (env : Env) : List Entity :=
  if (resA limit env).length < limit then
    accepted (resA limit env)
      (env.identMatches.take (limit - (resA limit env).length))
  else []

/-- The candidates Stage C contributes to `res`. -/
def segC (limit : Nat) (env : Env) : List Entity :=
  if (stB limit env).1.length < (stB limit env).2 then
    env.genusMatches.take ((stB limit env).2 - (stB limit env).1.length)
  else []

/-- The candidates Stage D contributes to `res`. -/
def segD (limit : Nat) (env : Env) : List Entity :=
  if (stC limit env).1.length < (stC limit env).2 then
    env.familyMatches.take ((stC limit env).2 - (stC limit env).1.length)
  else []

/-- The cascade result with each entity tagged by the stage that appended
it to `res`. -/
def cascadeT (limit : Nat) (env : Env) : List (Stage × Entity) :=
  (resA limit env).map (fun e => (Stage.A, e)) ++
    (segB limit env).map (fun e => (Stage.B, e)) ++
    (segC limit env).map (fun e => (Stage.C, e)) ++
    (segD limit env).map (fun e => (Stage.D, e))

/-- The `languoids` view (lines 66-120).  The direct-lookup branch runs
when `request.params.get('id')` is truthy; otherwise an untruthy `q`
returns the bare `[]`, and a truthy `q` runs the cascade with
`max_results = 20` and wraps it as `dict(results=..., more=False)`. -/
def languoids (env : Env) (req : Request) : Response :=
  if pyTruthy req.id then
    match splitFirstDash (req.id.getD []) with
    | none => Response.notFound
    | some p =>
      match modelOf p.1 with
      | none => Response.notFound
      | some md =>
        match env.getModel md p.2 with
        | none => Response.notFound
        | some obj => Response.found obj
  else if pyTruthy req.q then
    Response.results (cascade 20 env) false
  else
    Response.emptyList

/-- The provider queries a `languoids` call actually issues, in order:
none on the direct-lookup branch (it returns before line 84), none on the
empty-query branch (line 82 returns before line 84), and on the cascade
branch Stage A always, plus each later stage whose gate passes. -/
def invokedStages (env : Env) (req : Request) : List Stage :=
  if pyTruthy req.id then []
  else if pyTruthy req.q then
    Stage.A ::
      ((if invokedB 20 env then [Stage.B] else []) ++
        (if invokedC 20 env then [Stage.C] else []) ++
        (if invokedD 20 env then [Stage.D] else []))
  else []

/-- Case-insensitive prefix test over character lists. -/
def beginsWith : List Char → List Char → Bool
  | [], _ => true
  | _ :: _, [] => false
  | a :: as, b :: bs => a = b && beginsWith as bs

/-- Containment of `needle` as a contiguous subsequence of `hay`. -/
def containsSeq (needle : List Char) : List Char → Bool
  | [] => needle.isEmpty
  | c :: rest => beginsWith needle (c :: rest) || containsSeq needle rest

/-- The `clld.db.util.icontains` filter: case-insensitive substring
containment (SQL `ILIKE '%qs%'`). -/
def icontains (hay qs : List Char) : Bool :=
  containsSeq (qs.map Char.toLower) (hay.map Char.toLower)

/-- One row of the join `Language ⋈ LanguageIdentifier ⋈ Identifier` in
the Stage B query (lines 94-96): the language's primary key and the
`Identifier.name` of the joined identifier. -/
structure IdentRow where
  langPk : Nat
  identName : List Char

/-- The table data behind the Stage B query: each language's
`WalsLanguage.ascii_name` (as an order key) and the join rows. -/
structure DB where
  asciiName : Nat → Nat
  identRows : List IdentRow

/-- Ordered insertion by a numeric key (used to realize SQL `ORDER BY`). -/
def insertByKey {α : Type} (key : α → Nat) (a : α) : List α → List α
  | [] => [a]
  | b :: l => if key a ≤ key b then a :: b :: l else b :: insertByKey key a l

/-- Insertion sort by a numeric key: the semantics of `ORDER BY key`. -/
def sortByKey {α : Type} (key : α → Nat) : List α → List α
  | [] => []
  | a :: l => insertByKey key a (sortByKey key l)

/-- The full ordered row list of the Stage B query (lines 94-97): join
rows whose `Identifier.name` matches `icontains(..., qs)`, ordered by the
related language's `WalsLanguage.ascii_name`, yielding `Language` rows
(possibly with repetitions when several identifiers of one language
match). -/
def stageBMatches (db : DB) (qs : List Char) : List Entity :=
  (sortByKey (fun r => db.asciiName r.langPk)
      (db.identRows.filter fun r => icontains r.identName qs)).map
    fun r => Entity.lang r.langPk

/-- The Stage B order key of an entity: `WalsLanguage.ascii_name` of the
backing language. -/
def entityKey (db : DB) : Entity → Nat
  | .lang pk => db.asciiName pk
  | .genus _ => 0
  | .family _ => 0

/-- Concrete environment: Stage A matches 10 languages, Stage B matches
none, Stage C has a match available. -/
def envTen : Env :=
  ⟨fun _ _ => none, (List.range 10).map Entity.lang, [], [Entity.genus 0], []⟩

/-- Concrete environment: Stage A matches 1 language, Stage B none,
Stage C has 18 or more matches available. -/
def envOne : Env :=
  ⟨fun _ _ => none, [Entity.lang 0], [], (List.range 18).map Entity.genus, []⟩

/-- Concrete environment for spec Scenario 3: Stage A matches 2 languages,
the identifier query returns one duplicate of a Stage A language and one
new language, the genus query has 2 matches. -/
def envScen3 : Env :=
  ⟨fun _ _ => none, [Entity.lang 0, Entity.lang 1],
    [Entity.lang 0, Entity.lang 2], [Entity.genus 0, Entity.genus 1], []⟩

/-- Concrete environment with no matches and an empty direct lookup. -/
def envNone : Env :=
  ⟨fun _ _ => none, [], [], [], []⟩

/-- Concrete environment where every stage's gate passes. -/
def envAll : Env :=
  ⟨fun _ _ => none, [Entity.lang 0], [Entity.lang 1], [Entity.genus 0],
    [Entity.family 0]⟩

/-- Concrete direct-lookup key with the unknown prefix of spec
Scenario 5: the string `q-1`. -/
def keyQ1 : List Char := ['q', '-', '1']

/-- Concrete direct-lookup key whose id part itself contains a dash:
the string `w-abc-def`. -/
def keyWAbcDef : List Char := ['w', '-', 'a', 'b', 'c', '-', 'd', 'e', 'f']

/-- The id part of `keyWAbcDef`: the string `abc-def`. -/
def idAbcDef : List Char := ['a', 'b', 'c', '-', 'd', 'e', 'f']

/-- Whether an entity is a `Language` row. -/
def isLang : Entity → Bool
  | .lang _ => true
  | .genus _ => false
  | .family _ => false

/-- Concrete environment whose identifier query returns the same language
twice and also a duplicate of a Stage A language. -/
def envDup : Env :=
  ⟨fun _ _ => none, [Entity.lang 0],
    [Entity.lang 1, Entity.lang 1, Entity.lang 0], [Entity.genus 0], []⟩

/-- Concrete table data for the Stage B query: two languages whose
identifiers both contain the letter `x`, listed against ascending
`ascii_name` keys. -/
def db0 : DB :=
  ⟨fun pk => pk, [⟨1, ['x']⟩, ⟨0, ['x', 'y']⟩]⟩

/-- Concrete query string for `db0`: the string `x`. -/
def qs0 : List Char := ['x']

/-- Concrete environment whose identifier matches come from the modelled
Stage B query over `db0`. -/
def envB : Env :=
  ⟨fun _ _ => none, [], stageBMatches db0 qs0, [], []⟩

/-- Concrete request carrying the direct-lookup key `q-1`. -/
def reqQ1 : Request := ⟨some keyQ1, none⟩

/-- Concrete request whose `id` and `q` parameters are both present but
empty strings, hence falsy. -/
def reqFalsy : Request := ⟨some [], some []⟩

/-- Concrete request with a text query and no direct-lookup key. -/
def reqX : Request := ⟨none, some ['x']⟩

/-- Concrete request with neither parameter present. -/
def reqEmpty : Request := ⟨none, none⟩

end Wals3

namespace Wals3

/-- The Stage B loop equals its starting list followed by the newly
accepted candidates. -/
theorem dedupAppend_eq :
    ∀ (cands res : List Entity), dedupAppend res cands = res ++ accepted res cands := by
  intro cands
  induction cands with
  | nil => intro res; simp [dedupAppend, accepted]
  | cons l rest ih =>
    intro res
    by_cases h : l ∈ res
    · simp [dedupAppend, accepted, h, ih res]
    · simp [dedupAppend, accepted, h, ih (res ++ [l])]

/-- The accepted candidates form a sublist of the provider's output. -/
theorem accepted_sublist :
    ∀ (cands seen : List Entity), List.Sublist (accepted seen cands) cands := by
  intro cands
  induction cands with
  | nil => intro seen; simp [accepted]
  | cons l rest ih =>
    intro seen
    by_cases h : l ∈ seen
    · simpa [accepted, h] using (ih seen).cons l
    · simpa [accepted, h] using (ih (seen ++ [l])).cons₂ l

/-- At most as many candidates are accepted as the provider returned. -/
theorem accepted_length_le (cands seen : List Entity) :
    (accepted seen cands).length ≤ cands.length :=
  (accepted_sublist cands seen).length_le

/-- An accepted candidate was not in the list the loop started from. -/
theorem accepted_not_mem :
    ∀ (cands seen : List Entity) (e : Entity), e ∈ accepted seen cands → e ∉ seen := by
  intro cands
  induction cands with
  | nil => intro seen e he; simp [accepted] at he
  | cons l rest ih =>
    intro seen e he
    by_cases h : l ∈ seen
    · exact ih seen e (by simpa [accepted, h] using he)
    · simp only [accepted, h, if_neg, ite_false, List.mem_cons] at he
      rcases he with rfl | he
      · exact h
      · intro hmem
        exact ih (seen ++ [l]) e he (by simp [hmem])

/-- The accepted candidates hold no duplicates, whatever the provider
returned. -/
theorem accepted_nodup :
    ∀ (cands seen : List Entity), (accepted seen cands).Nodup := by
  intro cands
  induction cands with
  | nil => intro seen; simp [accepted]
  | cons l rest ih =>
    intro seen
    by_cases h : l ∈ seen
    · simpa [accepted, h] using ih seen
    · simp only [accepted, h, ite_false, List.nodup_cons]
      refine ⟨fun hmem => ?_, ih (seen ++ [l])⟩
      exact accepted_not_mem rest (seen ++ [l]) l hmem (by simp)

/-- Decomposition of the state after the Stage B block. -/
theorem stB_fst (limit : Nat) (env : Env) :
    (stB limit env).1 = resA limit env ++ segB limit env := by
  unfold stB segB
  split
  · simp [dedupAppend_eq]
  · simp

/-- Decomposition of the state after the Stage C block. -/
theorem stC_fst (limit : Nat) (env : Env) :
    (stC limit env).1 = (stB limit env).1 ++ segC limit env := by
  unfold stC segC
  split
  · rfl
  · simp

/-- Decomposition of the state after the Stage D block. -/
theorem stD_fst (limit : Nat) (env : Env) :
    (stD limit env).1 = (stC limit env).1 ++ segD limit env := by
  unfold stD segD
  split
  · rfl
  · simp

/-- The cascade output is the concatenation of the four stage segments. -/
theorem cascade_eq (limit : Nat) (env : Env) :
    cascade limit env =
      resA limit env ++ segB limit env ++ segC limit env ++ segD limit env := by
  unfold cascade
  rw [stD_fst, stC_fst, stB_fst]

/-- Forgetting the stage tags recovers the cascade output. -/
theorem cascadeT_map_snd (limit : Nat) (env : Env) :
    (cascadeT limit env).map Prod.snd = cascade limit env := by
  simp [cascadeT, cascade_eq, List.map_map, Function.comp]


/-- Stage A returns at most `limit` candidates. -/
theorem resA_length_le (limit : Nat) (env : Env) :
    (resA limit env).length ≤ limit := by
  simp [resA, List.length_take]

/-- The `max_results` value after the Stage B block never exceeds the
initial limit. -/
theorem stB_snd_le (limit : Nat) (env : Env) : (stB limit env).2 ≤ limit := by
  unfold stB
  split <;> omega

/-- The result list after the Stage B block holds at most `limit`
entries. -/
theorem stB_len_le (limit : Nat) (env : Env) :
    (stB limit env).1.length ≤ limit := by
  unfold stB
  split
  case isTrue h =>
    have h1 := accepted_length_le
      (env.identMatches.take (limit - (resA limit env).length)) (resA limit env)
    have h2 : (env.identMatches.take (limit - (resA limit env).length)).length
        ≤ limit - (resA limit env).length := by
      simp [List.length_take]
    simp only [dedupAppend_eq, List.length_append]
    omega
  case isFalse h => exact resA_length_le limit env

/-- The `max_results` value after the Stage C block never exceeds the
initial limit. -/
theorem stC_snd_le (limit : Nat) (env : Env) : (stC limit env).2 ≤ limit := by
  have := stB_snd_le limit env
  unfold stC
  split <;> omega

/-- The result list after the Stage C block holds at most `limit`
entries. -/
theorem stC_len_le (limit : Nat) (env : Env) :
    (stC limit env).1.length ≤ limit := by
  have h1 := stB_snd_le limit env
  have h2 := stB_len_le limit env
  unfold stC
  split
  case isTrue h =>
    simp only [List.length_append, List.length_take]
    omega
  case isFalse h => exact h2

/-- The final result list holds at most `limit` entries. -/
theorem cascade_length_le (limit : Nat) (env : Env) :
    (cascade limit env).length ≤ limit := by
  have h1 := stC_snd_le limit env
  have h2 := stC_len_le limit env
  unfold cascade stD
  split
  case isTrue h =>
    simp only [List.length_append, List.length_take]
    omega
  case isFalse h => exact h2

/-- A relation that holds universally holds pairwise on any list. -/
theorem pairwise_of_forall {a : Type} {R : a → a → Prop} (h : ∀ x y, R x y) :
    ∀ l : List a, l.Pairwise R := by
  intro l
  induction l with
  | nil => exact List.Pairwise.nil
  | cons x t ih => exact List.Pairwise.cons (fun y _ => h x y) ih

/-- Membership in a constant-tagged segment fixes the tag and projects to
membership of the entity. -/
theorem mem_tagged {S : Stage} {l : List Entity} {p : Stage × Entity}
    (hp : p ∈ l.map fun e => (S, e)) : p.1 = S ∧ p.2 ∈ l := by
  rcases List.mem_map.mp hp with ⟨e, he, rfl⟩
  exact ⟨rfl, he⟩

/-- Elements of an ordered insertion come from the inserted element or the
original list. -/
theorem mem_insertByKey {a : Type} (key : a → Nat) (x c : a) :
    ∀ l : List a, c ∈ insertByKey key x l → c = x ∨ c ∈ l := by
  intro l
  induction l with
  | nil => intro h; simp [insertByKey] at h; exact Or.inl h
  | cons b t ih =>
    intro h
    unfold insertByKey at h
    split at h
    · rcases List.mem_cons.mp h with rfl | h2
      · exact Or.inl rfl
      · exact Or.inr h2
    · rcases List.mem_cons.mp h with rfl | h2
      · exact Or.inr (List.mem_cons_self _ _)
      · rcases ih h2 with rfl | h3
        · exact Or.inl rfl
        · exact Or.inr (List.mem_cons_of_mem _ h3)

/-- Ordered insertion preserves sortedness by the key. -/
theorem insertByKey_pairwise {a : Type} (key : a → Nat) (x : a) :
    ∀ l : List a, l.Pairwise (fun u v => key u ≤ key v) →
      (insertByKey key x l).Pairwise (fun u v => key u ≤ key v) := by
  intro l
  induction l with
  | nil =>
    intro _
    simp [insertByKey]
  | cons b t ih =>
    intro hp
    rcases List.pairwise_cons.mp hp with ⟨hb, ht⟩
    unfold insertByKey
    split
    case isTrue hab =>
      refine List.pairwise_cons.mpr ⟨?_, hp⟩
      intro c hc
      rcases List.mem_cons.mp hc with rfl | hct
      · exact hab
      · exact Nat.le_trans hab (hb c hct)
    case isFalse hab =>
      refine List.pairwise_cons.mpr ⟨?_, ih ht⟩
      intro c hc
      rcases mem_insertByKey key x c t hc with rfl | hct
      · omega
      · exact hb c hct

/-- The modelled `ORDER BY` produces a list sorted by the key. -/
theorem sortByKey_pairwise {a : Type} (key : a → Nat) :
    ∀ l : List a, (sortByKey key l).Pairwise (fun u v => key u ≤ key v) := by
  intro l
  induction l with
  | nil => exact List.Pairwise.nil
  | cons x t ih => exact insertByKey_pairwise key x _ ih


/-- Reduction of `languoids` on the direct-lookup branch: a truthy `id`
parameter routes entirely through the split/prefix/lookup chain of
lines 67-77. -/
theorem languoids_id (env : Env) (req : Request) (key : List Char)
    (h1 : req.id = some key) (h2 : key ≠ []) :
    languoids env req =
      (match splitFirstDash key with
        | none => Response.notFound
        | some p =>
          match modelOf p.1 with
          | none => Response.notFound
          | some md =>
            match env.getModel md p.2 with
            | none => Response.notFound
            | some obj => Response.found obj) := by
  unfold languoids
  rw [h1]
  have htr : pyTruthy (some key) = true := by
    cases key with
    | nil => exact absurd rfl h2
    | cons c t => rfl
  rw [htr]
  simp

/-- Claim C1 (code divergence): the spec's gate and cap for Stages C and D
are the remaining quota, but the code compares the total collected count
against the reassigned `max_results`.  With Stage A returning 10 languages
and Stage B none, the remaining quota is 10 yet Stages C and D are never
invoked and the output stops at 10 items; with Stage A returning 1
language and Stage B none, Stage C is invoked with cap 18 although the
remaining quota is 19. -/
theorem c1_quota_gate_code_bug :
    invokedC 20 envTen = false ∧ invokedD 20 envTen = false ∧
      20 - (stB 20 envTen).1.length = 10 ∧ (cascade 20 envTen).length = 10 ∧
      invokedC 20 envOne = true ∧ capC 20 envOne = 18 ∧
      20 - (stB 20 envOne).1.length = 19 := by decide

/-- Claim C2 (code divergence): in spec Scenario 3 (limit 5, Stage A
returns 2, Stage B accepts 1 of 2 with one duplicate dropped, Stage C has
2 matches) the code's Stage C gate compares the 3 collected items against
the reassigned `max_results` of 3 and fails, so the output is the
3 items `[A, A, B]` and Stage C is never invoked — not the claimed 5 items
`[A, A, B, C, C]`. -/
theorem c2_scenario3_code_bug :
    cascadeT 5 envScen3 =
        [(Stage.A, Entity.lang 0), (Stage.A, Entity.lang 1),
          (Stage.B, Entity.lang 2)] ∧
      invokedC 5 envScen3 = false ∧ invokedD 5 envScen3 = false ∧
      (cascade 5 envScen3).length = 3 := by decide

/-- Claim C3 (counterexample): on an empty query the view returns the bare
list `[]` of line 82, which is not the `dict(results=[], more=False)`
shape the claim asserts. -/
theorem c3_empty_query_counterexample :
    languoids envNone reqEmpty = Response.emptyList ∧
      languoids envNone reqEmpty ≠ Response.results [] false := by decide

/-- Claim C3 (amended): with no truthy direct-lookup key and an empty or
missing text query, `languoids` returns the bare empty list and invokes no
provider. -/
theorem c3_empty_query_amended (env : Env) (req : Request)
    (hid : pyTruthy req.id = false) (hq : pyTruthy req.q = false) :
    languoids env req = Response.emptyList ∧ invokedStages env req = [] := by
  constructor
  · unfold languoids
    rw [hid, hq]
    simp
  · unfold invokedStages
    rw [hid, hq]
    simp

/-- Witness for the amended Claim C3 at a concrete input. -/
theorem c3_empty_query_amended_witness :
    languoids envNone reqFalsy = Response.emptyList ∧
      invokedStages envNone reqFalsy = [] :=
  c3_empty_query_amended envNone reqFalsy (by decide) (by decide)

/-- Claim C4: a request carrying a (nonempty) direct-lookup key invokes no
text-search provider, and either returns `NotFound` — exactly when the key
has no separator, or its prefix is not one of `w`, `g`, `f`, or the looked
up entity is absent — or returns a redirect to the entity the prefix and
id resolve to. -/
theorem c4_direct_lookup (env : Env) (req : Request) (key : List Char)
    (h1 : req.id = some key) (h2 : key ≠ []) :
    invokedStages env req = [] ∧
      ((languoids env req = Response.notFound ∧
          (splitFirstDash key).elim True (fun p =>
            (modelOf p.1).elim True fun md => env.getModel md p.2 = none)) ∨
        ∃ p md e, splitFirstDash key = some p ∧ modelOf p.1 = some md ∧
          env.getModel md p.2 = some e ∧
          languoids env req = Response.found e) := by
  have hred := languoids_id env req key h1 h2
  have htr : pyTruthy req.id = true := by
    rw [h1]
    cases key with
    | nil => exact absurd rfl h2
    | cons c t => rfl
  constructor
  · unfold invokedStages
    rw [htr]
    simp
  · cases hsp : splitFirstDash key with
    | none =>
      left
      exact ⟨by rw [hred, hsp], trivial⟩
    | some p =>
      cases hmd : modelOf p.1 with
      | none =>
        left
        refine ⟨?_, ?_⟩
        · rw [hred, hsp]
          simp [hmd]
        · simp [Option.elim, hmd]
      | some md =>
        cases hg : env.getModel md p.2 with
        | none =>
          left
          refine ⟨?_, ?_⟩
          · rw [hred, hsp]
            simp [hmd, hg]
          · simp [Option.elim, hmd, hg]
        | some e =>
          right
          refine ⟨p, md, e, rfl, hmd, hg, ?_⟩
          rw [hred, hsp]
          simp [hmd, hg]

/-- Witness for Claim C4 at the unknown-prefix key `q-1` of spec
Scenario 5. -/
theorem c4_direct_lookup_witness :
    invokedStages envNone reqQ1 = [] ∧
      ((languoids envNone reqQ1 = Response.notFound ∧
          (splitFirstDash keyQ1).elim True (fun p =>
            (modelOf p.1).elim True fun md => envNone.getModel md p.2 = none)) ∨
        ∃ p md e, splitFirstDash keyQ1 = some p ∧ modelOf p.1 = some md ∧
          envNone.getModel md p.2 = some e ∧
          languoids envNone reqQ1 = Response.found e) :=
  c4_direct_lookup envNone reqQ1 keyQ1 rfl (by decide)

/-- Claim C5: whenever `languoids` returns a result list, that list holds
at most 20 items, and no later stage's query is capped above the quota
remaining before it runs (each query already returns at most its cap,
since `.limit(n)` is `take n`). -/
theorem c5_limit_and_caps (env : Env) (req : Request) (rs : List Entity)
    (b : Bool) (h : languoids env req = Response.results rs b) :
    rs.length ≤ 20 ∧
      (invokedB 20 env = true → capB 20 env ≤ 20 - (resA 20 env).length) ∧
      (invokedC 20 env = true → capC 20 env ≤ 20 - (stB 20 env).1.length) ∧
      (invokedD 20 env = true → capD 20 env ≤ 20 - (stC 20 env).1.length) := by
  have hrs : rs = cascade 20 env := by
    unfold languoids at h
    split at h
    case isTrue hid =>
      exfalso
      split at h
      · simp at h
      · split at h
        · simp at h
        · split at h
          · simp at h
          · simp at h
    case isFalse hid =>
      split at h
      case isTrue hq =>
        injection h with hh1 hh2
        exact hh1.symm
      case isFalse hq => simp at h
  subst hrs
  refine ⟨cascade_length_le 20 env, ?_, ?_, ?_⟩
  · intro _
    exact Nat.le_refl _
  · intro _
    have := stB_snd_le 20 env
    unfold capC
    omega
  · intro _
    have := stC_snd_le 20 env
    unfold capD
    omega

/-- Witness for Claim C5 at an environment where every stage's gate
passes. -/
theorem c5_limit_and_caps_witness :
    (cascade 20 envAll).length ≤ 20 ∧
      capB 20 envAll ≤ 20 - (resA 20 envAll).length ∧
      capC 20 envAll ≤ 20 - (stB 20 envAll).1.length ∧
      capD 20 envAll ≤ 20 - (stC 20 envAll).1.length := by
  have h := c5_limit_and_caps envAll reqX (cascade 20 envAll) false (by decide)
  exact ⟨h.1, h.2.1 (by decide), h.2.2.1 (by decide), h.2.2.2 (by decide)⟩

/-- Claim C6: for every limit and provider behavior, the tagged cascade
output projects to the cascade output and its stage tags are
monotone — every candidate of a higher-priority stage precedes every
candidate of a lower-priority stage. -/
theorem c6_stage_order (limit : Nat) (env : Env) :
    (cascadeT limit env).map Prod.snd = cascade limit env ∧
      (cascadeT limit env).Pairwise (fun p q => stageIdx p.1 ≤ stageIdx q.1) := by
  refine ⟨cascadeT_map_snd limit env, ?_⟩
  have seg : ∀ (S : Stage) (l : List Entity),
      (l.map fun e => (S, e)).Pairwise
        (fun p q : Stage × Entity => stageIdx p.1 ≤ stageIdx q.1) := by
    intro S l
    exact List.pairwise_map.mpr (pairwise_of_forall (fun x y => Nat.le_refl _) l)
  have cross : ∀ (S T : Stage) (l m : List Entity), stageIdx S ≤ stageIdx T →
      ∀ p ∈ l.map fun e => (S, e), ∀ q ∈ m.map fun e => (T, e),
        stageIdx p.1 ≤ stageIdx q.1 := by
    intro S T l m hST p hp q hq
    rw [(mem_tagged hp).1, (mem_tagged hq).1]
    exact hST
  unfold cascadeT
  rw [List.pairwise_append]
  refine ⟨?_, seg _ _, ?_⟩
  · rw [List.pairwise_append]
    refine ⟨?_, seg _ _, ?_⟩
    · rw [List.pairwise_append]
      refine ⟨seg _ _, seg _ _, cross _ _ _ _ (by decide)⟩
    · intro p hp q hq
      rcases List.mem_append.mp hp with h | h
      · exact cross _ _ _ _ (by decide) p h q hq
      · exact cross _ _ _ _ (by decide) p h q hq
  · intro p hp q hq
    rcases List.mem_append.mp hp with h | h
    · rcases List.mem_append.mp h with h2 | h2
      · exact cross _ _ _ _ (by decide) p h2 q hq
      · exact cross _ _ _ _ (by decide) p h2 q hq
    · exact cross _ _ _ _ (by decide) p h q hq

/-- Claim C7: no Stage A candidate and Stage B candidate in the output
share a backing entity — every Stage B candidate whose entity is already
in the result list is dropped before appending. -/
theorem c7_dedup_a_b (limit : Nat) (env : Env) (p q : Stage × Entity)
    (hp : p ∈ cascadeT limit env) (hq : q ∈ cascadeT limit env)
    (hpa : p.1 = Stage.A) (hqb : q.1 = Stage.B) : p.2 ≠ q.2 := by
  have hpA : p.2 ∈ resA limit env := by
    unfold cascadeT at hp
    rcases List.mem_append.mp hp with h | h
    · rcases List.mem_append.mp h with h2 | h2
      · rcases List.mem_append.mp h2 with h3 | h3
        · exact (mem_tagged h3).2
        · rw [(mem_tagged h3).1] at hpa
          exact absurd hpa (by decide)
      · rw [(mem_tagged h2).1] at hpa
        exact absurd hpa (by decide)
    · rw [(mem_tagged h).1] at hpa
      exact absurd hpa (by decide)
  have hqB : q.2 ∈ segB limit env := by
    unfold cascadeT at hq
    rcases List.mem_append.mp hq with h | h
    · rcases List.mem_append.mp h with h2 | h2
      · rcases List.mem_append.mp h2 with h3 | h3
        · rw [(mem_tagged h3).1] at hqb
          exact absurd hqb (by decide)
        · exact (mem_tagged h3).2
      · rw [(mem_tagged h2).1] at hqb
        exact absurd hqb (by decide)
    · rw [(mem_tagged h).1] at hqb
      exact absurd hqb (by decide)
  have hnot : q.2 ∉ resA limit env := by
    unfold segB at hqB
    split at hqB
    · exact accepted_not_mem _ _ _ hqB
    · simp at hqB
  intro he
  rw [he] at hpA
  exact hnot hpA

/-- Witness for Claim C7: a concrete Stage A item and Stage B item of the
output with distinct entities. -/
theorem c7_dedup_a_b_witness :
    (Stage.A, Entity.lang 0) ∈ cascadeT 20 envAll ∧
      (Stage.B, Entity.lang 1) ∈ cascadeT 20 envAll ∧
      (Stage.A, Entity.lang 0).2 ≠ (Stage.B, Entity.lang 1).2 :=
  ⟨by decide, by decide,
    c7_dedup_a_b 20 envAll (Stage.A, Entity.lang 0) (Stage.B, Entity.lang 1)
      (by decide) (by decide) rfl rfl⟩

/-- Claim C8: when the identifier matches come from the modelled Stage B
query — join rows filtered by `icontains` on the identifier name, ordered
by the related language's `ascii_name` — the Stage B candidates accepted
into the output appear ordered by that `ascii_name` key. -/
theorem c8_stageB_sorted (limit : Nat) (db : DB) (qs : List Char)
    (env : Env) (henv : env.identMatches = stageBMatches db qs) :
    cascade limit env =
        resA limit env ++ segB limit env ++ segC limit env ++ segD limit env ∧
      (segB limit env).Pairwise (fun e f => entityKey db e ≤ entityKey db f) := by
  refine ⟨cascade_eq limit env, ?_⟩
  have hsorted : (stageBMatches db qs).Pairwise
      (fun e f => entityKey db e ≤ entityKey db f) := by
    unfold stageBMatches
    refine List.Pairwise.map _ ?_ (sortByKey_pairwise _ _)
    intro r s hrs
    exact hrs
  unfold segB
  split
  · rw [henv]
    exact List.Pairwise.sublist
      ((accepted_sublist _ _).trans (List.take_sublist _ _)) hsorted
  · exact List.Pairwise.nil

/-- Witness for Claim C8 at a concrete two-row database. -/
theorem c8_stageB_sorted_witness :
    cascade 20 envB =
        resA 20 envB ++ segB 20 envB ++ segC 20 envB ++ segD 20 envB ∧
      (segB 20 envB).Pairwise (fun e f => entityKey db0 e ≤ entityKey db0 f) :=
  c8_stageB_sorted 20 db0 qs0 envB rfl

/-- Claim C9: the Stage B loop deduplicates against the growing result
list, so even a duplicating identifier provider yields a Stage A + Stage B
prefix without duplicates, and — the genus and family providers returning
no language rows — no language entity occurs twice in the whole output. -/
theorem c9_stageB_self_dedup (limit : Nat) (env : Env)
    (hA : env.nameMatches.Nodup)
    (hC : ∀ e ∈ env.genusMatches, isLang e = false)
    (hD : ∀ e ∈ env.familyMatches, isLang e = false) :
    (resA limit env ++ segB limit env).Nodup ∧
      ∀ pk, (cascade limit env).count (Entity.lang pk) ≤ 1 := by
  have hnA : (resA limit env).Nodup :=
    List.Nodup.sublist (List.take_sublist _ _) hA
  have hnB : (segB limit env).Nodup := by
    unfold segB
    split
    · exact accepted_nodup _ _
    · exact List.nodup_nil
  have hdisj : ∀ e ∈ resA limit env, e ∉ segB limit env := by
    intro e he hmem
    unfold segB at hmem
    split at hmem
    · exact accepted_not_mem _ _ _ hmem he
    · simp at hmem
  have hAB : (resA limit env ++ segB limit env).Nodup := by
    rw [List.nodup_append]
    exact ⟨hnA, hnB, fun a ha hb => hdisj a ha hb⟩
  refine ⟨hAB, ?_⟩
  intro pk
  rw [cascade_eq, List.count_append, List.count_append]
  have h1 : (resA limit env ++ segB limit env).count (Entity.lang pk) ≤ 1 :=
    List.nodup_iff_count_le_one.mp hAB _
  have h2 : (segC limit env).count (Entity.lang pk) = 0 := by
    rw [List.count_eq_zero]
    intro hmem
    unfold segC at hmem
    split at hmem
    · simpa [isLang] using hC _ ((List.take_sublist _ _).subset hmem)
    · simp at hmem
  have h3 : (segD limit env).count (Entity.lang pk) = 0 := by
    rw [List.count_eq_zero]
    intro hmem
    unfold segD at hmem
    split at hmem
    · simpa [isLang] using hD _ ((List.take_sublist _ _).subset hmem)
    · simp at hmem
  omega

/-- Witness for Claim C9 at an identifier provider returning the same
language twice plus a duplicate of a Stage A language. -/
theorem c9_stageB_self_dedup_witness :
    (resA 20 envDup ++ segB 20 envDup).Nodup ∧
      (cascade 20 envDup).count (Entity.lang 1) ≤ 1 := by
  have h := c9_stageB_self_dedup 20 envDup (by decide) (by decide) (by decide)
  exact ⟨h.1, h.2 1⟩

/-- Claim C10: the direct-lookup key is split at the first dash only, so
for `w-abc-def` the prefix is `w` and the id looked up is `abc-def`, and a
key beginning with a dash has the empty, unrecognized prefix and yields
`NotFound`. -/
theorem c10_split_first_dash (env : Env) (q2 : Option (List Char))
    (rest : List Char) :
    splitFirstDash keyWAbcDef = some (['w'], idAbcDef) ∧
      languoids env ⟨some keyWAbcDef, q2⟩ =
        (env.getModel Model.w idAbcDef).elim Response.notFound Response.found ∧
      languoids env ⟨some ('-' :: rest), q2⟩ = Response.notFound := by
  refine ⟨by decide, ?_, ?_⟩
  · rw [languoids_id env ⟨some keyWAbcDef, q2⟩ keyWAbcDef rfl (by decide)]
    have hsp : splitFirstDash keyWAbcDef = some (['w'], idAbcDef) := by decide
    rw [hsp]
    cases hg : env.getModel Model.w idAbcDef with
    | none => simp [modelOf, hg, Option.elim]
    | some e => simp [modelOf, hg, Option.elim]
  · rw [languoids_id env ⟨some ('-' :: rest), q2⟩ ('-' :: rest) rfl (by simp)]
    simp [splitFirstDash, modelOf]

end Wals3
